import Mathlib

/-!
Verification of the drjacoby sampler core against its specification.

Shallow embedding of `src/src/Particle.cpp` (class `Particle`) and of
`System::load` (`src/unnamed/part_000`).  C++ `double` values are modelled
as `Option ℝ`: `some x` is a finite double of exact real value `x`, and
`none` stands for a non-finite double (NaN or an infinity).  `log` of a
non-positive argument yields a non-finite double in C (`-inf` at `0`, NaN
below), so the embedded `clog` returns `none` there; arithmetic on a
non-finite operand stays non-finite, which is sound for every operation
appearing in the embedded code (no operation used here maps a non-finite
operand back to a finite result).  `Rcpp::stop(msg)` is modelled by the
`Except String` error monad.
-/

namespace DrJacoby

/-- Finiteness-tracking logarithm: C's `log` produces a finite double exactly
when the argument is strictly positive (`log 0 = -inf`, `log x = NaN` for
`x < 0`). -/
noncomputable def clog (x : ℝ) : Option ℝ :=
  if 0 < x then some (Real.log x) else none

/-- Logarithm lifted to possibly non-finite doubles. -/
noncomputable def olog (x : Option ℝ) : Option ℝ :=
  x.bind clog

/-- Exponential lifted to possibly non-finite doubles. -/
noncomputable def oexp (x : Option ℝ) : Option ℝ :=
  x.map Real.exp

/-- Addition on possibly non-finite doubles: non-finite absorbs. -/
def oadd : Option ℝ → Option ℝ → Option ℝ
  | some a, some b => some (a + b)
  | _, _ => none

/-- Subtraction on possibly non-finite doubles: non-finite absorbs. -/
def osub : Option ℝ → Option ℝ → Option ℝ
  | some a, some b => some (a - b)
  | _, _ => none

/-- Multiplication on possibly non-finite doubles: non-finite absorbs. -/
def omul : Option ℝ → Option ℝ → Option ℝ
  | some a, some b => some (a * b)
  | _, _ => none

/-- Division on possibly non-finite doubles: division by zero is non-finite
in C (`inf` or NaN), and a non-finite operand absorbs. -/
noncomputable def odiv : Option ℝ → Option ℝ → Option ℝ
  | some a, some b => if b = 0 then none else some (a / b)
  | _, _ => none

/-- Configuration arguments handed to `System::load` (the `args_params`
entries read in `src/unnamed/part_000`). -/
structure LoadArgs where
  x : List ℝ
  theta_init : List ℝ
  theta_min : List ℝ
  theta_max : List ℝ
  trans_type : List ℤ
  burnin : List ℤ
  prop_method : List ℤ
  bw_update : List Bool
  bw_reset : List Bool
  cov_recalc : List Bool
  samples : ℤ
  rungs : ℤ
  coupling_on : Bool
  GTI_pow : ℝ
  chain : ℤ
  pb_markdown : Bool
  silent : Bool

/-- The `System` class: all data and parameters, shared by the particles.
Fields are exactly those assigned by `System::load` in
`src/unnamed/part_000`. -/
structure System where
  x : List ℝ
  theta_init : List ℝ
  theta_min : List ℝ
  theta_max : List ℝ
  trans_type : List ℤ
  d : ℕ
  burnin : List ℤ
  prop_method : List ℤ
  bw_update : List Bool
  bw_reset : List Bool
  cov_recalc : List Bool
  burnin_phases : ℕ
  samples : ℤ
  rungs : ℤ
  coupling_on : Bool
  GTI_pow : ℝ
  chain : ℤ
  pb_markdown : Bool
  silent : Bool

/-- `System::load` (`src/unnamed/part_000`, lines 6-43): copies every
supplied argument into the corresponding field, sets
`d = theta_init.size()` and `burnin_phases = burnin.size()`.  The body
contains no validity check and no error path. -/
def System.load (args : LoadArgs) : System where
  x := args.x
  theta_init := args.theta_init
  theta_min := args.theta_min
  theta_max := args.theta_max
  trans_type := args.trans_type
  d := args.theta_init.length
  burnin := args.burnin
  prop_method := args.prop_method
  bw_update := args.bw_update
  bw_reset := args.bw_reset
  cov_recalc := args.cov_recalc
  burnin_phases := args.burnin.length
  samples := args.samples
  rungs := args.rungs
  coupling_on := args.coupling_on
  GTI_pow := args.GTI_pow
  chain := args.chain
  pb_markdown := args.pb_markdown
  silent := args.silent

/-- Body of one iteration of the `theta_to_phi` loop
(`Particle.cpp`, lines 89-106): the `switch` over `trans_type[i]`. -/
noncomputable def theta_to_phi_i (t : ℤ) (tmin tmax : ℝ) (theta : Option ℝ) :
    Except String (Option ℝ) :=
  if t = 0 then .ok theta
  else if t = 1 then .ok (olog (osub (some tmax) theta))
  else if t = 2 then .ok (olog (osub theta (some tmin)))
  else if t = 3 then
    .ok (osub (olog (osub theta (some tmin))) (olog (osub (some tmax) theta)))
  else .error "trans_type invalid"

/-- Body of one iteration of the `phi_prop_to_theta_prop` loop
(`Particle.cpp`, lines 64-81): the `switch` over `trans_type[i]`. -/
noncomputable def phi_prop_to_theta_prop_i (t : ℤ) (tmin tmax : ℝ)
    (phi : Option ℝ) : Except String (Option ℝ) :=
  if t = 0 then .ok phi
  else if t = 1 then .ok (osub (some tmax) (oexp phi))
  else if t = 2 then .ok (oadd (oexp phi) (some tmin))
  else if t = 3 then
    .ok (odiv (oadd (omul (some tmax) (oexp phi)) (some tmin))
              (oadd (some 1) (oexp phi)))
  else .error "trans_type invalid"

/-- Per-parameter term of the `get_adjustment` loop
(`Particle.cpp`, lines 116-131): the quantity added to `ret` for parameter
`i`.  `case 0` performs no update, modelled as adding `0`. -/
noncomputable def adjustment_term (t : ℤ) (tmin tmax : ℝ)
    (theta theta_prop : Option ℝ) : Except String (Option ℝ) :=
  if t = 0 then .ok (some 0)
  else if t = 1 then
    .ok (osub (olog (osub theta_prop (some tmax))) (olog (osub theta (some tmax))))
  else if t = 2 then
    .ok (osub (olog (osub theta_prop (some tmin))) (olog (osub theta (some tmin))))
  else if t = 3 then
    .ok (osub (osub (oadd (olog (osub (some tmax) theta_prop))
                         (olog (osub theta_prop (some tmin))))
                   (olog (osub (some tmax) theta)))
             (olog (osub theta (some tmin))))
  else .error "trans_type invalid"

/-- A `for (i = 0; i < d; ++i)` loop writing one result per index and
aborting at the first `Rcpp::stop`. -/
def loopExcept (f : ℕ → Except String (Option ℝ)) :
    List ℕ → Except String (List (Option ℝ))
  | [] => .ok []
  | i :: is => match f i with
    | .error e => .error e
    | .ok v => match loopExcept f is with
      | .error e => .error e
      | .ok vs => .ok (v :: vs)

/-- A `for (i = 0; i < d; ++i)` loop accumulating `ret += f i` and aborting
at the first `Rcpp::stop`. -/
def foldExcept (f : ℕ → Except String (Option ℝ)) :
    List ℕ → Option ℝ → Except String (Option ℝ)
  | [], acc => .ok acc
  | i :: is, acc => match f i with
    | .error e => .error e
    | .ok v => foldExcept f is (oadd acc v)

/-- `Particle::theta_to_phi` (`Particle.cpp`, lines 87-108), abstracted over
the state it reads: maps each component of `theta` through the transform
selected by `trans_type[i]`. -/
noncomputable def theta_to_phi (s : System) (theta : List (Option ℝ)) :
    Except String (List (Option ℝ)) :=
  loopExcept
    (fun i => theta_to_phi_i (s.trans_type.getD i 0) (s.theta_min.getD i 0)
      (s.theta_max.getD i 0) (theta.getD i none))
    (List.range s.d)

/-- `Particle::phi_prop_to_theta_prop` (`Particle.cpp`, lines 62-83),
abstracted over the state it reads. -/
noncomputable def phi_prop_to_theta_prop (s : System)
    (phi_prop : List (Option ℝ)) : Except String (List (Option ℝ)) :=
  loopExcept
    (fun i => phi_prop_to_theta_prop_i (s.trans_type.getD i 0)
      (s.theta_min.getD i 0) (s.theta_max.getD i 0) (phi_prop.getD i none))
    (List.range s.d)

/-- The local variable `ret` of `Particle::get_adjustment`
(`Particle.cpp`, lines 112-134) at the end of the loop: the sum of the
per-parameter adjustment terms. -/
noncomputable def get_adjustment_ret (s : System)
    (theta theta_prop : List (Option ℝ)) : Except String (Option ℝ) :=
  foldExcept
    (fun i => adjustment_term (s.trans_type.getD i 0) (s.theta_min.getD i 0)
      (s.theta_max.getD i 0) (theta.getD i none) (theta_prop.getD i none))
    (List.range s.d) (some 0)

/-- The `Particle` class state, as used by `Particle.cpp`.  The `s_ptr`
back-pointer to the shared `System` is modelled by the pointed-to value;
`propSD` is a single scalar `double` (it is assigned the scalar `0.1` and
passed unindexed to `rnorm1`). -/
structure Particle where
  s_ptr : System
  d : ℕ
  beta_raised : ℝ
  theta : List (Option ℝ)
  theta_prop : List (Option ℝ)
  adj : ℝ
  phi : List (Option ℝ)
  phi_prop : List (Option ℝ)
  propSD : ℝ
  loglike : ℝ
  loglike_prop : ℝ
  logprior : ℝ
  logprior_prop : ℝ
  accept : ℤ

/-- `Particle::init` (`Particle.cpp`, lines 8-44): copies `theta_init`,
zero-fills the proposal vectors, computes `phi` via `theta_to_phi` (which
can stop on an invalid `trans_type`), and zeroes `adj`, the four cached
log-densities and the acceptance counter; `propSD` is set to `0.1`. -/
noncomputable def Particle.init (s : System) (beta_raised : ℝ) :
    Except String Particle :=
  match theta_to_phi s (s.theta_init.map some) with
  | .error e => .error e
  | .ok phi => .ok
      { s_ptr := s
        d := s.d
        beta_raised := beta_raised
        theta := s.theta_init.map some
        theta_prop := List.replicate s.d (some 0)
        adj := 0
        phi := phi
        phi_prop := List.replicate s.d (some 0)
        propSD := 0.1
        loglike := 0
        loglike_prop := 0
        logprior := 0
        logprior_prop := 0
        accept := 0 }

/-- Modelled from the spec: `rnorm1(mean, sd)` is defined in `misc_v7.h`,
which is not under `src/`; per the spec's proposal description
(a draw of the form mean plus scale times a standard-normal variate) it is
modelled deterministically with the standard-normal draw `z` passed as an
explicit argument. -/
def rnorm1 (mean : Option ℝ) (sd : ℝ) (z : ℝ) : Option ℝ :=
  oadd mean (some (sd * z))

/-- `Particle::propose_phi` (`Particle.cpp`, lines 49-57): for every
`i < d`, draws `phi_prop[i] = rnorm1(phi[i], propSD)`; the standard-normal
draws consumed by the loop are passed as the list `z`. -/
def Particle.propose_phi (p : Particle) (z : List ℝ) : Particle :=
  { p with
    phi_prop := (List.range p.d).map
      (fun i => rnorm1 (p.phi.getD i none) p.propSD (z.getD i 0)) }

/-- `Particle::get_adjustment` as a state transformer: the function is
`void`, computes `ret` into a local and never reads it again — the only
observable effects are the possible `Rcpp::stop` on an invalid
`trans_type` and an unchanged particle (`adj` is not assigned). -/
noncomputable def Particle.get_adjustment (p : Particle) :
    Except String Particle :=
  match get_adjustment_ret p.s_ptr p.theta p.theta_prop with
  | .error e => .error e
  | .ok _ => .ok p

/-- The four transform tags the `switch` statements handle. -/
def validTag (t : ℤ) : Prop :=
  t = 0 ∨ t = 1 ∨ t = 2 ∨ t = 3

instance validTag.decide (t : ℤ) : Decidable (validTag t) := by
  unfold validTag
  infer_instance

/-- Builds a concrete `System` with the given parameter block and neutral
MCMC settings, for evaluating the embedded code on explicit inputs. -/
def mkSystem (tt : List ℤ) (tmin tmax tinit : List ℝ) : System where
  x := [1]
  theta_init := tinit
  theta_min := tmin
  theta_max := tmax
  trans_type := tt
  d := tinit.length
  burnin := [10]
  prop_method := [0]
  bw_update := [true]
  bw_reset := [false]
  cov_recalc := [false]
  burnin_phases := 1
  samples := 10
  rungs := 1
  coupling_on := false
  GTI_pow := 1
  chain := 1
  pb_markdown := false
  silent := true

/-- One unbounded parameter (tag 0) started at 1. -/
def s0 : System := mkSystem [0] [-10] [10] [1]

/-- Two unbounded parameters (tag 0) started at 0. -/
def s1 : System := mkSystem [0, 0] [0, 0] [0, 0] [0, 0]

/-- One lower-bounded parameter (tag 2) with L = 0, started at 1. -/
def s2 : System := mkSystem [2] [0] [10] [1]

/-- One upper-bounded parameter (tag 1) with U = 0; the value 1 violates
the bound. -/
def sOut : System := mkSystem [1] [-10] [0] [1]

/-- One parameter with the invalid transform tag 7. -/
def sBadTag : System := mkSystem [7] [0] [1] [0.5]

/-- The particle produced by `Particle.init s0 2`. -/
def p0 : Particle where
  s_ptr := s0
  d := 1
  beta_raised := 2
  theta := [some 1]
  theta_prop := [some 0]
  adj := 0
  phi := [some 1]
  phi_prop := [some 0]
  propSD := 0.1
  loglike := 0
  loglike_prop := 0
  logprior := 0
  logprior_prop := 0
  accept := 0

/-- The particle produced by `Particle.init s1 1`. -/
def q0 : Particle where
  s_ptr := s1
  d := 2
  beta_raised := 1
  theta := [some 0, some 0]
  theta_prop := [some 0, some 0]
  adj := 0
  phi := [some 0, some 0]
  phi_prop := [some 0, some 0]
  propSD := 0.1
  loglike := 0
  loglike_prop := 0
  logprior := 0
  logprior_prop := 0
  accept := 0

/-- A particle over `s2` holding current value 1 and proposed value 2 for
its single tag-2 parameter, with `adj = 0`. -/
def pAdj : Particle where
  s_ptr := s2
  d := 1
  beta_raised := 1
  theta := [some 1]
  theta_prop := [some 2]
  adj := 0
  phi := [some 0]
  phi_prop := [some 0]
  propSD := 0.1
  loglike := 0
  loglike_prop := 0
  logprior := 0
  logprior_prop := 0
  accept := 0

/-- A configuration violating every rule the spec's ConfigError lists:
`theta_min = 5 > theta_max = 3`, `theta_init = 4` outside the bounds,
negative burn-in and sample counts, `rungs = 0 < 1` and `GTI_pow = 0 < 1`. -/
def badArgs : LoadArgs where
  x := [1]
  theta_init := [4]
  theta_min := [5]
  theta_max := [3]
  trans_type := [3]
  burnin := [-1]
  prop_method := [0]
  bw_update := [true]
  bw_reset := [true]
  cov_recalc := [true]
  samples := -5
  rungs := 0
  coupling_on := false
  GTI_pow := 0
  chain := 1
  pb_markdown := false
  silent := true

@[simp] lemma oadd_some_some (a b : ℝ) : oadd (some a) (some b) = some (a + b) :=
  rfl

@[simp] lemma osub_some_some (a b : ℝ) : osub (some a) (some b) = some (a - b) :=
  rfl

@[simp] lemma omul_some_some (a b : ℝ) : omul (some a) (some b) = some (a * b) :=
  rfl

@[simp] lemma oadd_none_left (x : Option ℝ) : oadd none x = none :=
  rfl

@[simp] lemma oadd_none_right (x : Option ℝ) : oadd x none = none := by
  cases x <;> rfl

@[simp] lemma osub_none_left (x : Option ℝ) : osub none x = none :=
  rfl

@[simp] lemma osub_none_right (x : Option ℝ) : osub x none = none := by
  cases x <;> rfl

@[simp] lemma olog_some (x : ℝ) : olog (some x) = clog x :=
  rfl

@[simp] lemma olog_none : olog none = none :=
  rfl

@[simp] lemma oexp_some (x : ℝ) : oexp (some x) = some (Real.exp x) :=
  rfl

@[simp] lemma odiv_some_some (a b : ℝ) :
    odiv (some a) (some b) = if b = 0 then none else some (a / b) :=
  rfl

lemma range_one : List.range 1 = [0] :=
  rfl

lemma clog_of_pos {x : ℝ} (h : 0 < x) : clog x = some (Real.log x) :=
  if_pos h

lemma clog_of_nonpos {x : ℝ} (h : x ≤ 0) : clog x = none :=
  if_neg (not_lt.mpr h)

lemma getD_range_map (g : ℕ → Option ℝ) {n i : ℕ} (h : i < n) :
    ((List.range n).map g).getD i none = g i := by
  rw [List.getD_eq_getElem?_getD, List.getElem?_map, List.getElem?_range h]
  rfl

lemma loopExcept_ok (f : ℕ → Except String (Option ℝ)) :
    ∀ l : List ℕ, (∀ i ∈ l, ∃ v, f i = .ok v) →
      ∃ vs, loopExcept f l = .ok vs
  | [], _ => ⟨[], rfl⟩
  | i :: is, h => by
    obtain ⟨v, hv⟩ := h i (List.mem_cons_self i is)
    obtain ⟨vs, hvs⟩ :=
      loopExcept_ok f is fun j hj => h j (List.mem_cons_of_mem _ hj)
    exact ⟨v :: vs, by unfold loopExcept; rw [hv, hvs]⟩

lemma loopExcept_err (f : ℕ → Except String (Option ℝ)) (M : String)
    (hdi : ∀ i, (∃ v, f i = .ok v) ∨ f i = .error M) :
    ∀ l : List ℕ, (∃ i ∈ l, f i = .error M) → loopExcept f l = .error M
  | [], h => absurd h (by simp)
  | i :: is, h => by
    rcases hdi i with ⟨v, hv⟩ | hv
    · have htail : ∃ j ∈ is, f j = .error M := by
        rcases h with ⟨j, hj, hfj⟩
        rcases List.mem_cons.mp hj with rfl | hj'
        · rw [hv] at hfj; simp at hfj
        · exact ⟨j, hj', hfj⟩
      have ht := loopExcept_err f M hdi is htail
      unfold loopExcept
      rw [hv, ht]
    · unfold loopExcept
      rw [hv]

lemma foldExcept_ok (f : ℕ → Except String (Option ℝ)) :
    ∀ (l : List ℕ) (acc : Option ℝ), (∀ i ∈ l, ∃ v, f i = .ok v) →
      ∃ w, foldExcept f l acc = .ok w
  | [], acc, _ => ⟨acc, rfl⟩
  | i :: is, acc, h => by
    obtain ⟨v, hv⟩ := h i (List.mem_cons_self i is)
    obtain ⟨w, hw⟩ := foldExcept_ok f is (oadd acc v)
      fun j hj => h j (List.mem_cons_of_mem _ hj)
    refine ⟨w, ?_⟩
    unfold foldExcept
    rw [hv]
    exact hw

lemma foldExcept_err (f : ℕ → Except String (Option ℝ)) (M : String)
    (hdi : ∀ i, (∃ v, f i = .ok v) ∨ f i = .error M) :
    ∀ (l : List ℕ) (acc : Option ℝ), (∃ i ∈ l, f i = .error M) →
      foldExcept f l acc = .error M
  | [], _, h => absurd h (by simp)
  | i :: is, acc, h => by
    rcases hdi i with ⟨v, hv⟩ | hv
    · have htail : ∃ j ∈ is, f j = .error M := by
        rcases h with ⟨j, hj, hfj⟩
        rcases List.mem_cons.mp hj with rfl | hj'
        · rw [hv] at hfj; simp at hfj
        · exact ⟨j, hj', hfj⟩
      have ht := foldExcept_err f M hdi is (oadd acc v) htail
      unfold foldExcept
      rw [hv]
      exact ht
    · unfold foldExcept
      rw [hv]

lemma theta_to_phi_i_ok (t : ℤ) (a b : ℝ) (x : Option ℝ) (h : validTag t) :
    ∃ v, theta_to_phi_i t a b x = .ok v := by
  rcases h with rfl | rfl | rfl | rfl
  · exact ⟨x, by norm_num [theta_to_phi_i]⟩
  · exact ⟨olog (osub (some b) x), by norm_num [theta_to_phi_i]⟩
  · exact ⟨olog (osub x (some a)), by norm_num [theta_to_phi_i]⟩
  · exact ⟨osub (olog (osub x (some a))) (olog (osub (some b) x)),
      by norm_num [theta_to_phi_i]⟩

lemma theta_to_phi_i_err (t : ℤ) (a b : ℝ) (x : Option ℝ)
    (h : ¬ validTag t) : theta_to_phi_i t a b x = .error "trans_type invalid" := by
  unfold validTag at h
  push_neg at h
  obtain ⟨h0, h1, h2, h3⟩ := h
  simp [theta_to_phi_i, h0, h1, h2, h3]

lemma theta_to_phi_i_cases (t : ℤ) (a b : ℝ) (x : Option ℝ) :
    (∃ v, theta_to_phi_i t a b x = .ok v) ∨
      theta_to_phi_i t a b x = .error "trans_type invalid" := by
  by_cases h : validTag t
  · exact Or.inl (theta_to_phi_i_ok t a b x h)
  · exact Or.inr (theta_to_phi_i_err t a b x h)

lemma phi_prop_to_theta_prop_i_ok (t : ℤ) (a b : ℝ) (x : Option ℝ)
    (h : validTag t) : ∃ v, phi_prop_to_theta_prop_i t a b x = .ok v := by
  rcases h with rfl | rfl | rfl | rfl
  · exact ⟨x, by norm_num [phi_prop_to_theta_prop_i]⟩
  · exact ⟨osub (some b) (oexp x), by norm_num [phi_prop_to_theta_prop_i]⟩
  · exact ⟨oadd (oexp x) (some a), by norm_num [phi_prop_to_theta_prop_i]⟩
  · exact ⟨odiv (oadd (omul (some b) (oexp x)) (some a))
        (oadd (some 1) (oexp x)),
      by norm_num [phi_prop_to_theta_prop_i]⟩

lemma phi_prop_to_theta_prop_i_err (t : ℤ) (a b : ℝ) (x : Option ℝ)
    (h : ¬ validTag t) :
    phi_prop_to_theta_prop_i t a b x = .error "trans_type invalid" := by
  unfold validTag at h
  push_neg at h
  obtain ⟨h0, h1, h2, h3⟩ := h
  simp [phi_prop_to_theta_prop_i, h0, h1, h2, h3]

lemma phi_prop_to_theta_prop_i_cases (t : ℤ) (a b : ℝ) (x : Option ℝ) :
    (∃ v, phi_prop_to_theta_prop_i t a b x = .ok v) ∨
      phi_prop_to_theta_prop_i t a b x = .error "trans_type invalid" := by
  by_cases h : validTag t
  · exact Or.inl (phi_prop_to_theta_prop_i_ok t a b x h)
  · exact Or.inr (phi_prop_to_theta_prop_i_err t a b x h)

lemma adjustment_term_ok (t : ℤ) (a b : ℝ) (x y : Option ℝ)
    (h : validTag t) : ∃ v, adjustment_term t a b x y = .ok v := by
  rcases h with rfl | rfl | rfl | rfl
  · exact ⟨some 0, by norm_num [adjustment_term]⟩
  · exact ⟨osub (olog (osub y (some b))) (olog (osub x (some b))),
      by norm_num [adjustment_term]⟩
  · exact ⟨osub (olog (osub y (some a))) (olog (osub x (some a))),
      by norm_num [adjustment_term]⟩
  · exact ⟨osub (osub (oadd (olog (osub (some b) y)) (olog (osub y (some a))))
          (olog (osub (some b) x))) (olog (osub x (some a))),
      by norm_num [adjustment_term]⟩

lemma adjustment_term_err (t : ℤ) (a b : ℝ) (x y : Option ℝ)
    (h : ¬ validTag t) :
    adjustment_term t a b x y = .error "trans_type invalid" := by
  unfold validTag at h
  push_neg at h
  obtain ⟨h0, h1, h2, h3⟩ := h
  simp [adjustment_term, h0, h1, h2, h3]

lemma adjustment_term_cases (t : ℤ) (a b : ℝ) (x y : Option ℝ) :
    (∃ v, adjustment_term t a b x y = .ok v) ∨
      adjustment_term t a b x y = .error "trans_type invalid" := by
  by_cases h : validTag t
  · exact Or.inl (adjustment_term_ok t a b x y h)
  · exact Or.inr (adjustment_term_err t a b x y h)

lemma propose_phi_getD (p : Particle) (z : List ℝ) (i : ℕ) (h : i < p.d) :
    (Particle.propose_phi p z).phi_prop.getD i none
      = rnorm1 (p.phi.getD i none) p.propSD (z.getD i 0) := by
  unfold Particle.propose_phi
  exact getD_range_map _ h

/-- C1: the claim that `Particle::get_adjustment` produces the additive
Jacobian term A and makes it available to the caller fails on the code: on
the concrete tag-2 particle `pAdj` (L = 0, θ = 1, θ′ = 2) the loop computes
the local `ret = log 2 ≠ 0`, but the function is `void`, never assigns
`adj`, and returns the particle unchanged, with `adj` still `0`. -/
theorem C1_get_adjustment_discards :
    get_adjustment_ret s2 pAdj.theta pAdj.theta_prop = .ok (some (Real.log 2)) ∧
    Real.log 2 ≠ 0 ∧
    Particle.get_adjustment pAdj = .ok pAdj ∧
    pAdj.adj = 0 := by
  have hret : get_adjustment_ret s2 pAdj.theta pAdj.theta_prop
      = .ok (some (Real.log 2)) := by
    norm_num [get_adjustment_ret, s2, mkSystem, pAdj, range_one,
      foldExcept, adjustment_term, clog_of_pos]
  have hne : Real.log 2 ≠ 0 := ne_of_gt (Real.log_pos (by norm_num))
  have hga : Particle.get_adjustment pAdj = .ok pAdj := by
    unfold Particle.get_adjustment
    have hs : pAdj.s_ptr = s2 := rfl
    rw [hs, hret]
  exact ⟨hret, hne, hga, rfl⟩

/-- C2: for a tag-1 parameter in its domain the code's per-parameter
adjustment is not the finite value log(U − θ′) − log(U − θ): at U = 10,
θ = 0, θ′ = 1 the code computes log(θ′ − U) − log(θ − U) =
log(−9) − log(−10), logs of negative numbers, hence a non-finite (NaN)
result, while the spec's formula at the same input is the finite
log 9 − log 10. -/
theorem C2_tag1_adjustment_nonfinite :
    adjustment_term 1 0 10 (some 0) (some 1) = .ok none ∧
    osub (clog ((10:ℝ) - 1)) (clog ((10:ℝ) - 0))
      = some (Real.log 9 - Real.log 10) := by
  constructor
  · norm_num [adjustment_term, clog_of_nonpos]
  · rw [clog_of_pos (by norm_num : (0:ℝ) < 10 - 1),
      clog_of_pos (by norm_num : (0:ℝ) < 10 - 0)]
    norm_num

/-- C3: for every transform tag in {0,1,2,3} and every θ strictly inside
that tag's domain, the forward transform of `theta_to_phi` produces a
finite φ and the inverse transform of `phi_prop_to_theta_prop` maps it
back to exactly θ. -/
theorem C3_transform_roundtrip (t : ℤ) (tmin tmax θ : ℝ)
    (hdom : t = 0 ∨ (t = 1 ∧ θ < tmax) ∨ (t = 2 ∧ tmin < θ) ∨
      (t = 3 ∧ tmin < θ ∧ θ < tmax)) :
    ∃ φ, theta_to_phi_i t tmin tmax (some θ) = .ok (some φ) ∧
      phi_prop_to_theta_prop_i t tmin tmax (some φ) = .ok (some θ) := by
  rcases hdom with rfl | ⟨rfl, hu⟩ | ⟨rfl, hl⟩ | ⟨rfl, hl, hu⟩
  · exact ⟨θ, by norm_num [theta_to_phi_i],
      by norm_num [phi_prop_to_theta_prop_i]⟩
  · have hb : 0 < tmax - θ := sub_pos.mpr hu
    refine ⟨Real.log (tmax - θ), ?_, ?_⟩
    · norm_num [theta_to_phi_i, clog_of_pos hb]
    · norm_num [phi_prop_to_theta_prop_i, Real.exp_log hb, sub_sub_cancel]
  · have ha : 0 < θ - tmin := sub_pos.mpr hl
    refine ⟨Real.log (θ - tmin), ?_, ?_⟩
    · norm_num [theta_to_phi_i, clog_of_pos ha]
    · norm_num [phi_prop_to_theta_prop_i, Real.exp_log ha, sub_add_cancel]
  · have ha : 0 < θ - tmin := sub_pos.mpr hl
    have hb : 0 < tmax - θ := sub_pos.mpr hu
    refine ⟨Real.log (θ - tmin) - Real.log (tmax - θ), ?_, ?_⟩
    · norm_num [theta_to_phi_i, clog_of_pos ha, clog_of_pos hb]
    · have he : Real.exp (Real.log (θ - tmin) - Real.log (tmax - θ))
          = (θ - tmin) / (tmax - θ) := by
        rw [Real.exp_sub, Real.exp_log ha, Real.exp_log hb]
      have hden : (0:ℝ) < 1 + (θ - tmin) / (tmax - θ) := by positivity
      have hval : (tmax * ((θ - tmin) / (tmax - θ)) + tmin)
          / (1 + (θ - tmin) / (tmax - θ)) = θ := by
        rw [div_eq_iff hden.ne']
        field_simp
        ring
      norm_num [phi_prop_to_theta_prop_i, he, hden.ne', hval]

/-- C3 witness: the round trip at tag 3 with L = 0, U = 2, θ = 1. -/
theorem C3_transform_roundtrip_witness :
    ∃ φ, theta_to_phi_i 3 0 2 (some 1) = .ok (some φ) ∧
      phi_prop_to_theta_prop_i 3 0 2 (some φ) = .ok (some 1) :=
  C3_transform_roundtrip 3 0 2 1 (by norm_num)

/-- C4 counterexample: on the two-parameter particle `q0` a single call of
`propose_phi` (with standard-normal draws 1, 1) changes every coordinate
of `phi_prop` away from `phi`, so there is no parameter index i such that
the proposal leaves all other coordinates unchanged — the claim's
univariate one-at-a-time proposal does not describe this code. -/
theorem C4_counterexample :
    ¬ ∃ i, i < q0.d ∧ ∀ j, j < q0.d → j ≠ i →
      (Particle.propose_phi q0 [1, 1]).phi_prop.getD j none
        = q0.phi.getD j none := by
  rintro ⟨i, hi, hall⟩
  have h0 : (Particle.propose_phi q0 [1, 1]).phi_prop.getD 0 none
      = some (0 + 0.1 * 1) := by
    rw [propose_phi_getD q0 [1, 1] 0 (by decide)]
    rfl
  have h1 : (Particle.propose_phi q0 [1, 1]).phi_prop.getD 1 none
      = some (0 + 0.1 * 1) := by
    rw [propose_phi_getD q0 [1, 1] 1 (by decide)]
    rfl
  have hne : (some (0 + 0.1 * 1) : Option ℝ) ≠ some 0 := by
    norm_num
  have hd2 : q0.d = 2 := rfl
  rw [hd2] at hi
  interval_cases i
  · have hcontra := hall 1 (by decide) (by decide)
    rw [h1] at hcontra
    exact hne hcontra
  · have hcontra := hall 0 (by decide) (by decide)
    rw [h0] at hcontra
    exact hne hcontra

/-- C4 amended: `propose_phi` makes a block proposal — in one call every
coordinate i < d of `phi_prop` is freshly drawn as
`rnorm1(phi[i], propSD)`; no coordinate is left at its current value and
there is no per-parameter sequencing. -/
theorem C4_propose_phi_all_coords (p : Particle) (z : List ℝ) (i : ℕ)
    (h : i < p.d) :
    (Particle.propose_phi p z).phi_prop.getD i none
      = rnorm1 (p.phi.getD i none) p.propSD (z.getD i 0) :=
  propose_phi_getD p z i h

/-- C4 witness: the amended statement evaluated at coordinate 0 of `q0`. -/
theorem C4_propose_phi_all_coords_witness :
    (Particle.propose_phi q0 [1, 1]).phi_prop.getD 0 none
      = rnorm1 (q0.phi.getD 0 none) q0.propSD (([1, 1] : List ℝ).getD 0 0) :=
  C4_propose_phi_all_coords q0 [1, 1] 0 (by decide)

/-- C5 counterexample: `System::load` applied to a configuration violating
every rule the claim lists (bounds 5 ≥ 3, initial value 4 outside them,
burn-in −1, samples −5, rungs 0 < 1, GTI_pow 0 < 1) returns normally with
the invalid values copied through — no ConfigError is raised during
load. -/
theorem C5_counterexample :
    System.load badArgs =
      { x := [1], theta_init := [4], theta_min := [5], theta_max := [3],
        trans_type := [3], d := 1, burnin := [-1], prop_method := [0],
        bw_update := [true], bw_reset := [true], cov_recalc := [true],
        burnin_phases := 1, samples := -5, rungs := 0, coupling_on := false,
        GTI_pow := 0, chain := 1, pb_markdown := false, silent := true } :=
  rfl

/-- C5 amended: `System::load` performs no validation at all — for every
argument list, valid or not, it returns the `System` whose fields are the
arguments copied verbatim, with `d` and `burnin_phases` set to the lengths
of `theta_init` and `burnin`; it has no error path. -/
theorem C5_load_no_validation (a : LoadArgs) :
    System.load a =
      { x := a.x, theta_init := a.theta_init, theta_min := a.theta_min,
        theta_max := a.theta_max, trans_type := a.trans_type,
        d := a.theta_init.length, burnin := a.burnin,
        prop_method := a.prop_method, bw_update := a.bw_update,
        bw_reset := a.bw_reset, cov_recalc := a.cov_recalc,
        burnin_phases := a.burnin.length, samples := a.samples,
        rungs := a.rungs, coupling_on := a.coupling_on,
        GTI_pow := a.GTI_pow, chain := a.chain,
        pb_markdown := a.pb_markdown, silent := a.silent } :=
  rfl

/-- C6 counterexample: `theta_to_phi` on the tag-1 system `sOut` (U = 0)
with the bound-violating value θ = 1 does not fail — it returns normally
with a non-finite φ component (log(0 − 1), log of a negative number). -/
theorem C6_counterexample :
    theta_to_phi sOut [some 1] = .ok [none] := by
  norm_num [theta_to_phi, sOut, mkSystem, range_one, loopExcept,
    theta_to_phi_i, clog_of_nonpos]

/-- C6 amended: `theta_to_phi` contains no bounds check: for a component
value outside its tag's domain it silently produces a non-finite φ
(log of a non-positive quantity) instead of raising any error. -/
theorem C6_theta_to_phi_silent_nonfinite (t : ℤ) (tmin tmax θ : ℝ)
    (h : (t = 1 ∧ tmax ≤ θ) ∨ (t = 2 ∧ θ ≤ tmin) ∨
      (t = 3 ∧ (θ ≤ tmin ∨ tmax ≤ θ))) :
    theta_to_phi_i t tmin tmax (some θ) = .ok none := by
  rcases h with ⟨rfl, hle⟩ | ⟨rfl, hle⟩ | ⟨rfl, hle⟩
  · have hx : tmax - θ ≤ 0 := by linarith
    norm_num [theta_to_phi_i, clog_of_nonpos hx]
  · have hx : θ - tmin ≤ 0 := by linarith
    norm_num [theta_to_phi_i, clog_of_nonpos hx]
  · rcases hle with hle | hle
    · have hx : θ - tmin ≤ 0 := by linarith
      norm_num [theta_to_phi_i, clog_of_nonpos hx]
    · have hx : tmax - θ ≤ 0 := by linarith
      norm_num [theta_to_phi_i, clog_of_nonpos hx]

/-- C6 witness: the amended statement at tag 1, U = 0, θ = 1. -/
theorem C6_theta_to_phi_silent_nonfinite_witness :
    theta_to_phi_i 1 (-10) 0 (some 1) = .ok none :=
  C6_theta_to_phi_silent_nonfinite 1 (-10) 0 1 (Or.inl ⟨rfl, by norm_num⟩)

/-- C7 counterexample: after `Particle.init` on the two-parameter system
`s1` the proposal state holds the single scalar `propSD = 0.1`, shared by
both parameters and used directly as the standard deviation; it is not a
log-scale σ with exp(σ) = 0.1, since exp(propSD) ≠ 0.1. -/
theorem C7_counterexample :
    Particle.init s1 1 = .ok q0 ∧ q0.propSD = 0.1 ∧
      Real.exp q0.propSD ≠ 0.1 := by
  refine ⟨rfl, rfl, ?_⟩
  show Real.exp 0.1 ≠ 0.1
  have h1 : (0.1 : ℝ) + 1 ≤ Real.exp 0.1 := Real.add_one_le_exp 0.1
  have h2 : (0.1 : ℝ) < Real.exp 0.1 := by linarith
  exact ne_of_gt h2

/-- C7 amended: every particle produced by `init` carries the single
scalar proposal standard deviation `propSD = 0.1`, stored directly (not in
log space), and `propose_phi` uses that same 0.1 as the proposal standard
deviation of every parameter. -/
theorem C7_propSD_scalar (s : System) (b : ℝ) (p : Particle)
    (h : Particle.init s b = .ok p) :
    p.propSD = 0.1 ∧ ∀ z i, i < p.d →
      (Particle.propose_phi p z).phi_prop.getD i none
        = rnorm1 (p.phi.getD i none) 0.1 (z.getD i 0) := by
  have hp : p.propSD = 0.1 := by
    unfold Particle.init at h
    cases hphi : theta_to_phi s (s.theta_init.map some) with
    | error e => rw [hphi] at h; exact absurd h (by simp)
    | ok phi =>
      rw [hphi] at h
      injection h with h2
      subst h2
      rfl
  refine ⟨hp, fun z i hi => ?_⟩
  rw [propose_phi_getD p z i hi, hp]

/-- C7 witness: the amended statement evaluated on `q0 = init s1 1` at
coordinate 0. -/
theorem C7_propSD_scalar_witness :
    q0.propSD = 0.1 ∧
      (Particle.propose_phi q0 [1, 1]).phi_prop.getD 0 none
        = rnorm1 (q0.phi.getD 0 none) 0.1 (([1, 1] : List ℝ).getD 0 0) :=
  ⟨(C7_propSD_scalar s1 1 q0 rfl).1,
   (C7_propSD_scalar s1 1 q0 rfl).2 [1, 1] 0 (by decide)⟩

/-- C8: transform-tag dispatch is exhaustive and checked — if any
parameter index below d carries a tag outside {0,1,2,3} then
`theta_to_phi`, `phi_prop_to_theta_prop` and the `get_adjustment`
computation all stop with "trans_type invalid", and if every tag is in
{0,1,2,3} all three return a value without reaching the error branch. -/
theorem C8_dispatch_exhaustive (s : System)
    (theta theta_prop phi_prop : List (Option ℝ)) :
    ((∃ i, i < s.d ∧ ¬ validTag (s.trans_type.getD i 0)) →
      theta_to_phi s theta = .error "trans_type invalid" ∧
      phi_prop_to_theta_prop s phi_prop = .error "trans_type invalid" ∧
      get_adjustment_ret s theta theta_prop = .error "trans_type invalid") ∧
    ((∀ i, i < s.d → validTag (s.trans_type.getD i 0)) →
      (∃ vs, theta_to_phi s theta = .ok vs) ∧
      (∃ vs, phi_prop_to_theta_prop s phi_prop = .ok vs) ∧
      (∃ v, get_adjustment_ret s theta theta_prop = .ok v)) := by
  constructor
  · rintro ⟨i, hi, hbad⟩
    refine ⟨?_, ?_, ?_⟩
    · exact loopExcept_err _ _ (fun j => theta_to_phi_i_cases _ _ _ _) _
        ⟨i, List.mem_range.mpr hi, theta_to_phi_i_err _ _ _ _ hbad⟩
    · exact loopExcept_err _ _
        (fun j => phi_prop_to_theta_prop_i_cases _ _ _ _) _
        ⟨i, List.mem_range.mpr hi,
          phi_prop_to_theta_prop_i_err _ _ _ _ hbad⟩
    · exact foldExcept_err _ _ (fun j => adjustment_term_cases _ _ _ _ _) _ _
        ⟨i, List.mem_range.mpr hi, adjustment_term_err _ _ _ _ _ hbad⟩
  · intro hall
    refine ⟨?_, ?_, ?_⟩
    · exact loopExcept_ok _ _
        fun j hj => theta_to_phi_i_ok _ _ _ _ (hall j (List.mem_range.mp hj))
    · exact loopExcept_ok _ _
        fun j hj => phi_prop_to_theta_prop_i_ok _ _ _ _
          (hall j (List.mem_range.mp hj))
    · exact foldExcept_ok _ _ _
        fun j hj => adjustment_term_ok _ _ _ _ _
          (hall j (List.mem_range.mp hj))

/-- C8 witness: the invalid tag 7 of `sBadTag` makes `theta_to_phi` stop
with "trans_type invalid", while on `s0` (tag 0) it returns a value. -/
theorem C8_dispatch_exhaustive_witness :
    theta_to_phi sBadTag [some 1] = .error "trans_type invalid" ∧
    (∃ vs, theta_to_phi s0 [some 1] = .ok vs) := by
  constructor
  · exact ((C8_dispatch_exhaustive sBadTag [some 1] [some 1] [some 1]).1
      ⟨0, by decide, by decide⟩).1
  · exact ((C8_dispatch_exhaustive s0 [some 1] [some 1] [some 1]).2
      (by decide)).1

/-- C9: immediately after `Particle.init s b` succeeds, the particle has
`theta = theta_init`, `phi` equal to the transform of `theta`,
`beta_raised` equal to the given argument, and both the adjustment
accumulator `adj` and the acceptance counter `accept` equal to 0. -/
theorem C9_init_establishes_invariant (s : System) (b : ℝ) (p : Particle)
    (h : Particle.init s b = .ok p) :
    p.theta = s.theta_init.map some ∧
    theta_to_phi s p.theta = .ok p.phi ∧
    p.beta_raised = b ∧ p.adj = 0 ∧ p.accept = 0 := by
  unfold Particle.init at h
  cases hphi : theta_to_phi s (s.theta_init.map some) with
  | error e => rw [hphi] at h; exact absurd h (by simp)
  | ok phi =>
    rw [hphi] at h
    injection h with h2
    subst h2
    exact ⟨rfl, hphi, rfl, rfl, rfl⟩

/-- C9 witness: the invariant evaluated on `p0 = init s0 2`. -/
theorem C9_init_establishes_invariant_witness :
    p0.theta = s0.theta_init.map some ∧
    theta_to_phi s0 p0.theta = .ok p0.phi ∧
    p0.beta_raised = 2 ∧ p0.adj = 0 ∧ p0.accept = 0 :=
  C9_init_establishes_invariant s0 2 p0 rfl

/-- C10: immediately after `Particle.init`, the cached log-likelihood and
log-prior are both exactly 0, for every system and inverse temperature —
`init` never consults the dataset or the user's likelihood and prior, so
the cache-consistency invariant can only be established later. -/
theorem C10_init_zero_caches (s : System) (b : ℝ) (p : Particle)
    (h : Particle.init s b = .ok p) :
    p.loglike = 0 ∧ p.logprior = 0 := by
  unfold Particle.init at h
  cases hphi : theta_to_phi s (s.theta_init.map some) with
  | error e => rw [hphi] at h; exact absurd h (by simp)
  | ok phi =>
    rw [hphi] at h
    injection h with h2
    subst h2
    exact ⟨rfl, rfl⟩

/-- C10 witness: the zero caches evaluated on `p0 = init s0 2`. -/
theorem C10_init_zero_caches_witness :
    p0.loglike = 0 ∧ p0.logprior = 0 :=
  C10_init_zero_caches s0 2 p0 rfl

end DrJacoby
